import Mathlib

/-!
Shallow embedding of the christmas-piano controller core
(src/piano_lights.py and src/piano_lights_rtmidi.py).

State is the set of currently held notes (`active_notes`); emissions to the
relay board are modelled as the list of `(relay_channel, state)` pairs that
`set_relay` would forward to GPIO. Both variants share the same handler
logic, parameterised by their note-to-relay map; the decode paths differ
only in how raw message bytes are read.
-/

namespace PianoLights

/-- GPIO pins of the 8-channel relay board (`self.relay_pins` in both variants). -/
def relay_pins : List Nat := [18, 19, 20, 21, 22, 23, 24, 25]

/-- Loop body of `setup_note_mapping`: `for relay_channel, (start_note, end_note)
in enumerate(octave_ranges): for note in range(start, end+1): dict[note] = relay_channel`.
The accumulator is the partial lookup built so far; later ranges overwrite earlier
ones on overlap, exactly as repeated dict assignment does. -/
def setup_note_mapping_aux : Nat → List (Nat × Nat) → (Nat → Option Nat) → (Nat → Option Nat)
  | _, [], m => m
  | relay_channel, r :: rest, m =>
      setup_note_mapping_aux (relay_channel + 1) rest
        (fun note => if r.1 ≤ note ∧ note ≤ r.2 then some relay_channel else m note)

/-- Build `self.note_to_relay` from a configured list of inclusive ranges. -/
def setup_note_mapping (ranges : List (Nat × Nat)) : Nat → Option Nat :=
  setup_note_mapping_aux 0 ranges (fun _ => none)

/-- Octave-group partition configured in src/piano_lights.py. -/
def octave_ranges : List (Nat × Nat) :=
  [(21, 34), (35, 47), (48, 59), (60, 71), (72, 83), (84, 95), (96, 107), (108, 108)]

/-- Music-focused partition configured in src/piano_lights_rtmidi.py. -/
def octave_ranges_rt : List (Nat × Nat) :=
  [(21, 47), (48, 53), (54, 59), (60, 65), (66, 71), (72, 77), (78, 83), (84, 108)]

/-- The note-to-relay map of the pygame (polling) variant. -/
def note_to_relay : Nat → Option Nat := setup_note_mapping octave_ranges

/-- The note-to-relay map of the rtmidi (callback) variant. -/
def note_to_relay_rt : Nat → Option Nat := setup_note_mapping octave_ranges_rt

/-- Emission behaviour of `set_relay`: a `(channel, state)` pair reaches GPIO only
when `0 <= relay_channel < len(self.relay_pins)`. -/
def set_relay (relay_channel : Nat) (state : Bool) : List (Nat × Bool) :=
  if relay_channel < relay_pins.length then [(relay_channel, state)] else []

/-- `handle_note_on`: if the note is mapped and velocity is positive, add the note
to `active_notes` and energise its relay. Returns the new state and the emissions. -/
def handle_note_on (m : Nat → Option Nat) (note velocity : Nat) (active : Finset Nat) :
    Finset Nat × List (Nat × Bool) :=
  match m note with
  | some relay_channel =>
      if 0 < velocity then (insert note active, set_relay relay_channel true)
      else (active, [])
  | none => (active, [])

/-- `handle_note_off`: if the note is mapped and currently in `active_notes`,
remove it and de-energise its relay. Otherwise a no-op. -/
def handle_note_off (m : Nat → Option Nat) (note : Nat) (active : Finset Nat) :
    Finset Nat × List (Nat × Bool) :=
  match m note with
  | some relay_channel =>
      if note ∈ active then (active.erase note, set_relay relay_channel false)
      else (active, [])
  | none => (active, [])

/-- Per-event body of `process_midi_events` (pygame variant). `status = data[0]`
and `note = data[1]` are unchecked subscripts, so a message shorter than two
bytes raises (modelled as `none`); `velocity = data[2] if len(data) > 2 else 0`. -/
def process_midi_event (m : Nat → Option Nat) (data : List Nat) (active : Finset Nat) :
    Option (Finset Nat × List (Nat × Bool)) :=
  match data with
  | status :: note :: rest =>
      let velocity := rest.headD 0
      some (if 0x80 ≤ status ∧ status ≤ 0x8F then
          handle_note_off m note active
        else if 0x90 ≤ status ∧ status ≤ 0x9F then
          if velocity = 0 then handle_note_off m note active
          else handle_note_on m note velocity active
        else (active, []))
  | _ => none

/-- `midi_callback` (rtmidi variant): messages shorter than three bytes are
dropped by the `len(message) >= 3` guard; otherwise the first three bytes are
decoded exactly as in the pygame variant. -/
def midi_callback (m : Nat → Option Nat) (message : List Nat) (active : Finset Nat) :
    Finset Nat × List (Nat × Bool) :=
  match message with
  | status :: note :: velocity :: _ =>
      if 0x80 ≤ status ∧ status ≤ 0x8F then
        handle_note_off m note active
      else if 0x90 ≤ status ∧ status ≤ 0x9F then
        if velocity = 0 then handle_note_off m note active
        else handle_note_on m note velocity active
      else (active, [])
  | _ => (active, [])

/-- A polled batch of events, processed in arrival order (`process_midi_events`
loops over the events returned by `read`). -/
def process_midi_events (m : Nat → Option Nat) :
    List (List Nat) → Finset Nat → Option (Finset Nat × List (Nat × Bool))
  | [], active => some (active, [])
  | data :: rest, active =>
      (process_midi_event m data active).bind fun r1 =>
        (process_midi_events m rest r1.1).map fun r2 => (r2.1, r1.2 ++ r2.2)

/-- A sequence of callback deliveries, processed in arrival order. -/
def midi_callbacks (m : Nat → Option Nat) :
    List (List Nat) → Finset Nat → Finset Nat × List (Nat × Bool)
  | [], active => (active, [])
  | message :: rest, active =>
      let r1 := midi_callback m message active
      let r2 := midi_callbacks m rest r1.1
      (r2.1, r1.2 ++ r2.2)

/-- `cleanup`: `for i in range(len(self.relay_pins)): self.set_relay(i, False)`.
It forces every relay off but does not touch `active_notes`. -/
def cleanup (active : Finset Nat) : Finset Nat × List (Nat × Bool) :=
  (active, (List.range relay_pins.length).foldl (fun acc i => acc ++ set_relay i false) [])

/-- Closed form of the pygame variant's map: nested conditionals, the last
configured range tested outermost (later dict writes win). -/
theorem note_to_relay_eq (n : Nat) : note_to_relay n =
    if 108 ≤ n ∧ n ≤ 108 then some 7
    else if 96 ≤ n ∧ n ≤ 107 then some 6
    else if 84 ≤ n ∧ n ≤ 95 then some 5
    else if 72 ≤ n ∧ n ≤ 83 then some 4
    else if 60 ≤ n ∧ n ≤ 71 then some 3
    else if 48 ≤ n ∧ n ≤ 59 then some 2
    else if 35 ≤ n ∧ n ≤ 47 then some 1
    else if 21 ≤ n ∧ n ≤ 34 then some 0
    else none := rfl

/-- Closed form of the rtmidi variant's map. -/
theorem note_to_relay_rt_eq (n : Nat) : note_to_relay_rt n =
    if 84 ≤ n ∧ n ≤ 108 then some 7
    else if 78 ≤ n ∧ n ≤ 83 then some 6
    else if 72 ≤ n ∧ n ≤ 77 then some 5
    else if 66 ≤ n ∧ n ≤ 71 then some 4
    else if 60 ≤ n ∧ n ≤ 65 then some 3
    else if 54 ≤ n ∧ n ≤ 59 then some 2
    else if 48 ≤ n ∧ n ≤ 53 then some 1
    else if 21 ≤ n ∧ n ≤ 47 then some 0
    else none := rfl

/-- Every channel the pygame map assigns is a valid relay index. -/
theorem note_to_relay_lt (n c : Nat) (h : note_to_relay n = some c) : c < 8 := by
  rw [note_to_relay_eq] at h
  split_ifs at h <;> simp_all <;> omega

/-- Every channel the rtmidi map assigns is a valid relay index. -/
theorem note_to_relay_rt_lt (n c : Nat) (h : note_to_relay_rt n = some c) : c < 8 := by
  rw [note_to_relay_rt_eq] at h
  split_ifs at h <;> simp_all <;> omega

/-- C1: from any tracker state, releasing a mapped note that is in `active_notes`
emits `(channelOf(note), false)` and removes only that note, even when a distinct
note on the same channel remains held afterward. -/
theorem noteOff_mirrors_release (m : Nat → Option Nat) (note other c : Nat)
    (active : Finset Nat) (hm : ∀ k j, m k = some j → j < 8)
    (hc : m note = some c) (hn : note ∈ active)
    (ho : other ∈ active) (hne : other ≠ note) (hoc : m other = some c) :
    handle_note_off m note active = (active.erase note, [(c, false)]) ∧
    other ∈ (handle_note_off m note active).1 := by
  have hlt : c < relay_pins.length := by
    simpa [relay_pins] using hm note c hc
  constructor
  · simp [handle_note_off, hc, hn, set_relay, hlt]
  · simp [handle_note_off, hc, hn, set_relay, hlt, Finset.mem_erase, hne, ho]

/-- C1 witness: notes 21 and 34 both map to relay 0 under the octave partition;
releasing 21 still emits `(0, false)` while 34 stays held. -/
theorem noteOff_mirrors_release_witness :
    handle_note_off note_to_relay 21 ({21, 34} : Finset Nat) =
      (({21, 34} : Finset Nat).erase 21, [(0, false)]) ∧
    34 ∈ (handle_note_off note_to_relay 21 ({21, 34} : Finset Nat)).1 :=
  noteOff_mirrors_release note_to_relay 21 34 0 {21, 34}
    (fun k j h => note_to_relay_lt k j h)
    (by decide) (by decide) (by decide) (by decide) (by decide)

/-- C2 counterexample: with `active_notes = {21, 60, 90}` the shutdown path turns
all eight relays off, yet `active_notes` is not empty afterwards — `cleanup`
never clears it. -/
theorem cleanup_leaves_active_notes :
    (cleanup ({21, 60, 90} : Finset Nat)).2 =
      [(0, false), (1, false), (2, false), (3, false),
       (4, false), (5, false), (6, false), (7, false)] ∧
    (cleanup ({21, 60, 90} : Finset Nat)).1 ≠ (∅ : Finset Nat) := by
  constructor
  · rfl
  · decide

/-- C2 amended: from every tracker state, shutdown emits `(c, false)` for each of
the 8 channels in order regardless of the contents of `active_notes`, and leaves
`active_notes` exactly as it was (the code does not clear it). -/
theorem cleanup_emits_all_channels (active : Finset Nat) :
    cleanup active =
      (active, [(0, false), (1, false), (2, false), (3, false),
                (4, false), (5, false), (6, false), (7, false)]) := rfl

/-- C4: a Note-On message with velocity 0 is processed exactly like a Note-Off
message for the same note — same emission, same resulting `active_notes` — on
both decode paths. -/
theorem noteOn_zero_velocity_alias (m : Nat → Option Nat)
    (stOn stOff note velocity : Nat) (active : Finset Nat)
    (h1 : 0x90 ≤ stOn) (h2 : stOn ≤ 0x9F) (h3 : 0x80 ≤ stOff) (h4 : stOff ≤ 0x8F) :
    midi_callback m [stOn, note, 0] active = midi_callback m [stOff, note, velocity] active ∧
    process_midi_event m [stOn, note, 0] active =
      process_midi_event m [stOff, note, velocity] active := by
  constructor <;>
    simp only [midi_callback, process_midi_event, List.headD] <;>
    split_ifs <;> first | rfl | omega

/-- C4 witness: status `0x90` with velocity 0 behaves as status `0x80` for
note 60 from the state where 60 is held. -/
theorem noteOn_zero_velocity_alias_witness :
    midi_callback note_to_relay [0x90, 60, 0] ({60} : Finset Nat) =
      midi_callback note_to_relay [0x80, 60, 64] ({60} : Finset Nat) ∧
    process_midi_event note_to_relay [0x90, 60, 0] ({60} : Finset Nat) =
      process_midi_event note_to_relay [0x80, 60, 64] ({60} : Finset Nat) :=
  noteOn_zero_velocity_alias note_to_relay 0x90 0x80 60 64 {60}
    (by decide) (by decide) (by decide) (by decide)

/-- C5: a Note-Off for a note that is not in `active_notes` emits nothing and
leaves the state unchanged, for any map. -/
theorem noteOff_idempotent (m : Nat → Option Nat) (note : Nat) (active : Finset Nat)
    (h : note ∉ active) :
    handle_note_off m note active = (active, []) := by
  unfold handle_note_off
  cases m note with
  | none => rfl
  | some relay_channel => simp [h]

/-- C5 witness: releasing note 60 from the state holding only note 72 is a no-op. -/
theorem noteOff_idempotent_witness :
    handle_note_off note_to_relay 60 ({72} : Finset Nat) = ({72}, []) :=
  noteOff_idempotent note_to_relay 60 {72} (by decide)

/-- C6: pressing a mapped note with positive velocity inserts it into
`active_notes` and emits `(channelOf(note), true)`; when the note is already
held the insertion leaves the state unchanged and the same emission recurs. -/
theorem noteOn_inserts_and_emits (m : Nat → Option Nat) (note c velocity : Nat)
    (active : Finset Nat) (hm : ∀ k j, m k = some j → j < 8)
    (hc : m note = some c) (hv : 0 < velocity) :
    handle_note_on m note velocity active = (insert note active, [(c, true)]) ∧
    (note ∈ active → insert note active = active) := by
  have hlt : c < relay_pins.length := by
    simpa [relay_pins] using hm note c hc
  refine ⟨by simp [handle_note_on, hc, hv, set_relay, hlt], fun h => Finset.insert_eq_self.2 h⟩

/-- C6 witness: re-striking note 60 (already held) re-emits `(3, true)` and
leaves `active_notes` as `{60}`. -/
theorem noteOn_inserts_and_emits_witness :
    handle_note_on note_to_relay 60 64 ({60} : Finset Nat) =
      (insert 60 ({60} : Finset Nat), [(3, true)]) ∧
    (60 ∈ ({60} : Finset Nat) → insert 60 ({60} : Finset Nat) = ({60} : Finset Nat)) :=
  noteOn_inserts_and_emits note_to_relay 60 3 64 {60}
    (fun k j h => note_to_relay_lt k j h) (by decide) (by decide)

/-- C8: a three-byte message whose status byte names neither Note-Off
(`0x80`–`0x8F`) nor Note-On (`0x90`–`0x9F`) is silently dropped by both decode
paths: no emission, state unchanged, and no failure. -/
theorem unknown_status_dropped (m : Nat → Option Nat) (status note velocity : Nat)
    (active : Finset Nat)
    (h1 : ¬(0x80 ≤ status ∧ status ≤ 0x8F)) (h2 : ¬(0x90 ≤ status ∧ status ≤ 0x9F)) :
    process_midi_event m [status, note, velocity] active = some (active, []) ∧
    midi_callback m [status, note, velocity] active = (active, []) := by
  constructor <;> simp [process_midi_event, midi_callback, h1, h2]

/-- C8 witness: a control-change message (status `0xB0`) is dropped. -/
theorem unknown_status_dropped_witness :
    process_midi_event note_to_relay [0xB0, 64, 127] ({60} : Finset Nat) =
      some ({60}, []) ∧
    midi_callback note_to_relay [0xB0, 64, 127] ({60} : Finset Nat) = ({60}, []) :=
  unknown_status_dropped note_to_relay 0xB0 64 127 {60} (by decide) (by decide)

/-- On a message of at least three bytes the pygame per-event body and the rtmidi
callback body decode identically. -/
theorem event_eq_callback (m : Nat → Option Nat) (s n v : Nat) (t : List Nat)
    (active : Finset Nat) :
    process_midi_event m (s :: n :: v :: t) active =
      some (midi_callback m (s :: n :: v :: t) active) := rfl

/-- C3 counterexample: the two variants' decode/apply paths are not behaviorally
equal. First, the configured maps differ: a Note-On for note 35 emits on relay 1
under the pygame map but relay 0 under the rtmidi map. Second, even with the
same map a two-byte message `[0x90, 60]` is treated by the pygame path as a
velocity-0 Note-On (hence a Note-Off, emitting) while the rtmidi path drops it. -/
theorem delivery_paths_differ :
    (process_midi_event note_to_relay [0x90, 35, 100] (∅ : Finset Nat)).map
        (fun r => r.2) ≠
      some (midi_callback note_to_relay_rt [0x90, 35, 100] (∅ : Finset Nat)).2 ∧
    (process_midi_event note_to_relay [0x90, 60] ({60} : Finset Nat)).map
        (fun r => r.2) ≠
      some (midi_callback note_to_relay [0x90, 60] ({60} : Finset Nat)).2 := by
  constructor <;> decide

/-- C3 amended: when both variants use the same note-to-relay map and every
message carries at least three bytes, the polling path and the callback path
produce the same emissions and the same resulting `active_notes` on any message
sequence; they diverge on shorter messages (pygame substitutes velocity 0,
rtmidi drops the message) and the two variants configure different maps. -/
theorem delivery_paths_agree (m : Nat → Option Nat) (msgs : List (List Nat))
    (active : Finset Nat) (h : ∀ msg ∈ msgs, 3 ≤ msg.length) :
    process_midi_events m msgs active = some (midi_callbacks m msgs active) := by
  induction msgs generalizing active with
  | nil => rfl
  | cons msg rest ih =>
      have hmsg : 3 ≤ msg.length := h msg (List.mem_cons_self _ _)
      have hrest : ∀ x ∈ rest, 3 ≤ x.length := fun x hx => h x (List.mem_cons_of_mem _ hx)
      rcases msg with _ | ⟨s, msg⟩
      · simp at hmsg
      rcases msg with _ | ⟨n, msg⟩
      · simp at hmsg
      rcases msg with _ | ⟨v, t⟩
      · simp at hmsg
      have ih' : ∀ a, process_midi_events m rest a = some (midi_callbacks m rest a) :=
        fun a => ih a hrest
      rw [process_midi_events, midi_callbacks, event_eq_callback, Option.some_bind', ih',
        Option.map_some']

/-- C3 witness: a Note-On then Note-Off pair of full three-byte messages is
processed identically by both paths over the octave map. -/
theorem delivery_paths_agree_witness :
    process_midi_events note_to_relay [[0x90, 60, 64], [0x80, 60, 0]] (∅ : Finset Nat) =
      some (midi_callbacks note_to_relay [[0x90, 60, 64], [0x80, 60, 0]] (∅ : Finset Nat)) :=
  delivery_paths_agree note_to_relay [[0x90, 60, 64], [0x80, 60, 0]] ∅ (by decide)

/-- C9 counterexample: `setup_note_mapping` does no validation. A two-entry
overlapping configuration and a one-entry configuration are both accepted and
produce working maps (with the later range winning on the overlap) instead of
failing construction. -/
theorem setup_accepts_invalid_config :
    setup_note_mapping [(21, 108), (40, 60)] 50 = some 1 ∧
    setup_note_mapping [(21, 108), (40, 60)] 30 = some 0 ∧
    setup_note_mapping [(21, 108)] 60 = some 0 := by
  refine ⟨rfl, rfl, rfl⟩

/-- Unfolding lemma for the mapping builder: a note is assigned by the
accumulated lookup exactly when some remaining range contains it or the
accumulator already assigned it. -/
theorem setup_note_mapping_aux_isSome (ranges : List (Nat × Nat)) :
    ∀ (idx : Nat) (m : Nat → Option Nat) (note : Nat),
      ((setup_note_mapping_aux idx ranges m) note).isSome ↔
        (∃ r ∈ ranges, r.1 ≤ note ∧ note ≤ r.2) ∨ (m note).isSome := by
  induction ranges with
  | nil => intro idx m note; simp [setup_note_mapping_aux]
  | cons r rest ih =>
      intro idx m note
      rcases Decidable.em (r.1 ≤ note ∧ note ≤ r.2) with h | h <;>
        simp [setup_note_mapping_aux, ih, h]

/-- C9 amended: construction never fails and performs no validation — for every
configured list of ranges (whatever its length or overlaps), `setup_note_mapping`
produces a total lookup in which a note is mapped exactly when some configured
range contains it; invalid partitions are accepted, not rejected. -/
theorem setup_never_fails (ranges : List (Nat × Nat)) (note : Nat) :
    (setup_note_mapping ranges note).isSome ↔
      ∃ r ∈ ranges, r.1 ≤ note ∧ note ≤ r.2 := by
  rw [setup_note_mapping, setup_note_mapping_aux_isSome]
  simp

set_option maxHeartbeats 1000000 in
/-- C7: under both configured partitions every note in 21..108 is mapped to a
channel in 0..7, the configured ranges are pairwise non-overlapping, every note
outside 21..108 is unmapped, and an event referencing an unmapped note emits
nothing from either handler. -/
theorem channel_maps_partition :
    (∀ n, 21 ≤ n → n ≤ 108 → ∃ c, note_to_relay n = some c ∧ c < 8) ∧
    (∀ n, 21 ≤ n → n ≤ 108 → ∃ c, note_to_relay_rt n = some c ∧ c < 8) ∧
    octave_ranges.Pairwise (fun r s => r.2 < s.1 ∨ s.2 < r.1) ∧
    octave_ranges_rt.Pairwise (fun r s => r.2 < s.1 ∨ s.2 < r.1) ∧
    (∀ n, n < 21 ∨ 108 < n → note_to_relay n = none ∧ note_to_relay_rt n = none) ∧
    (∀ (m : Nat → Option Nat) (n velocity : Nat) (active : Finset Nat), m n = none →
      handle_note_on m n velocity active = (active, []) ∧
      handle_note_off m n active = (active, [])) := by
  refine ⟨?_, ?_, ?_, ?_, ?_, ?_⟩
  · intro n h1 h2
    rw [note_to_relay_eq]
    split_ifs <;> first | exact ⟨_, rfl, by omega⟩ | (exfalso; omega)
  · intro n h1 h2
    rw [note_to_relay_rt_eq]
    split_ifs <;> first | exact ⟨_, rfl, by omega⟩ | (exfalso; omega)
  · decide
  · decide
  · intro n h
    constructor
    · rw [note_to_relay_eq]; split_ifs <;> first | (exfalso; omega) | rfl
    · rw [note_to_relay_rt_eq]; split_ifs <;> first | (exfalso; omega) | rfl
  · intro m n velocity active hm
    constructor <;> simp [handle_note_on, handle_note_off, hm]

/-- C7 witness: note 60 is mapped by both partitions, note 120 by neither, and
events on note 120 are no-ops. -/
theorem channel_maps_partition_witness :
    (∃ c, note_to_relay 60 = some c ∧ c < 8) ∧
    (∃ c, note_to_relay_rt 60 = some c ∧ c < 8) ∧
    (note_to_relay 120 = none ∧ note_to_relay_rt 120 = none) ∧
    (handle_note_on note_to_relay 120 64 (∅ : Finset Nat) = (∅, []) ∧
     handle_note_off note_to_relay 120 (∅ : Finset Nat) = (∅, [])) :=
  ⟨channel_maps_partition.1 60 (by decide) (by decide),
   channel_maps_partition.2.1 60 (by decide) (by decide),
   channel_maps_partition.2.2.2.2.1 120 (by decide),
   channel_maps_partition.2.2.2.2.2 note_to_relay 120 64 ∅ (by decide)⟩

/-- Invariant of C10: every held note is a key of the note-to-relay map. -/
def mapped_inv (m : Nat → Option Nat) (active : Finset Nat) : Prop :=
  ∀ n ∈ active, (m n).isSome

/-- Emission soundness of C10: a channel is emitted only for mapped notes and
only below the relay count. -/
def emits_mapped (m : Nat → Option Nat) (es : List (Nat × Bool)) : Prop :=
  ∀ e ∈ es, e.1 < 8 ∧ ∃ k, m k = some e.1

theorem handle_note_on_inv (m : Nat → Option Nat) (note velocity : Nat)
    (active : Finset Nat) (h : mapped_inv m active) :
    mapped_inv m (handle_note_on m note velocity active).1 ∧
    emits_mapped m (handle_note_on m note velocity active).2 := by
  unfold handle_note_on
  cases hm : m note with
  | none => exact ⟨h, by simp [emits_mapped]⟩
  | some c =>
      by_cases hv : 0 < velocity
      · simp only [hv, if_true]
        constructor
        · intro k hk
          rcases Finset.mem_insert.1 hk with rfl | hk
          · simp [hm]
          · exact h k hk
        · intro e he
          simp only [set_relay] at he
          split_ifs at he with hlt
          · simp only [List.mem_singleton] at he
            subst he
            exact ⟨by simpa [relay_pins] using hlt, note, hm⟩
          · simp at he
      · simp only [hv, if_false]
        exact ⟨h, by simp [emits_mapped]⟩

theorem handle_note_off_inv (m : Nat → Option Nat) (note : Nat)
    (active : Finset Nat) (h : mapped_inv m active) :
    mapped_inv m (handle_note_off m note active).1 ∧
    emits_mapped m (handle_note_off m note active).2 := by
  unfold handle_note_off
  cases hm : m note with
  | none => exact ⟨h, by simp [emits_mapped]⟩
  | some c =>
      by_cases hn : note ∈ active
      · simp only [hn, if_true]
        constructor
        · intro k hk
          exact h k (Finset.mem_of_mem_erase hk)
        · intro e he
          simp only [set_relay] at he
          split_ifs at he with hlt
          · simp only [List.mem_singleton] at he
            subst he
            exact ⟨by simpa [relay_pins] using hlt, note, hm⟩
          · simp at he
      · simp only [hn, if_false]
        exact ⟨h, by simp [emits_mapped]⟩

theorem midi_callback_inv (m : Nat → Option Nat) (message : List Nat)
    (active : Finset Nat) (h : mapped_inv m active) :
    mapped_inv m (midi_callback m message active).1 ∧
    emits_mapped m (midi_callback m message active).2 := by
  rcases message with _ | ⟨s, _ | ⟨n, _ | ⟨v, t⟩⟩⟩
  · exact ⟨h, fun e he => absurd he (List.not_mem_nil e)⟩
  · exact ⟨h, fun e he => absurd he (List.not_mem_nil e)⟩
  · exact ⟨h, fun e he => absurd he (List.not_mem_nil e)⟩
  · simp only [midi_callback]
    split_ifs <;>
      first
        | exact handle_note_off_inv m n active h
        | exact handle_note_on_inv m n v active h
        | exact ⟨h, by simp [emits_mapped]⟩

theorem process_midi_event_inv (m : Nat → Option Nat) (data : List Nat)
    (active : Finset Nat) (out : Finset Nat × List (Nat × Bool))
    (h : mapped_inv m active) (heq : process_midi_event m data active = some out) :
    mapped_inv m out.1 ∧ emits_mapped m out.2 := by
  unfold process_midi_event at heq
  rcases data with _ | ⟨s, _ | ⟨n, rest⟩⟩
  · exact absurd heq (by simp)
  · exact absurd heq (by simp)
  · rw [Option.some_inj] at heq
    subst heq
    split_ifs <;>
      first
        | exact handle_note_off_inv m n active h
        | exact handle_note_on_inv m n _ active h
        | exact ⟨h, by simp [emits_mapped]⟩

theorem midi_callbacks_inv (m : Nat → Option Nat) (msgs : List (List Nat))
    (active : Finset Nat) (h : mapped_inv m active) :
    mapped_inv m (midi_callbacks m msgs active).1 ∧
    emits_mapped m (midi_callbacks m msgs active).2 := by
  induction msgs generalizing active with
  | nil => exact ⟨h, by simp [midi_callbacks, emits_mapped]⟩
  | cons msg rest ih =>
      obtain ⟨h1, e1⟩ := midi_callback_inv m msg active h
      obtain ⟨h2, e2⟩ := ih _ h1
      refine ⟨h2, ?_⟩
      intro e he
      rw [midi_callbacks] at he
      simp only [List.mem_append] at he
      rcases he with he | he
      · exact e1 e he
      · exact e2 e he

/-- C10: if every held note is mapped, then after any handler call, any callback
delivery, any successfully processed polled event, and any callback sequence,
every held note is still mapped; and every emission produced carries a mapped
channel below 8. -/
theorem active_notes_stay_mapped (m : Nat → Option Nat) (active : Finset Nat)
    (h : mapped_inv m active) :
    mapped_inv m (∅ : Finset Nat) ∧
    (∀ note velocity, mapped_inv m (handle_note_on m note velocity active).1 ∧
      emits_mapped m (handle_note_on m note velocity active).2) ∧
    (∀ note, mapped_inv m (handle_note_off m note active).1 ∧
      emits_mapped m (handle_note_off m note active).2) ∧
    (∀ message, mapped_inv m (midi_callback m message active).1 ∧
      emits_mapped m (midi_callback m message active).2) ∧
    (∀ data out, process_midi_event m data active = some out →
      mapped_inv m out.1 ∧ emits_mapped m out.2) ∧
    (∀ msgs, mapped_inv m (midi_callbacks m msgs active).1 ∧
      emits_mapped m (midi_callbacks m msgs active).2) := by
  refine ⟨?_, ?_, ?_, ?_, ?_, ?_⟩
  · intro n hn
    exact absurd hn (Finset.not_mem_empty n)
  · exact fun note velocity => handle_note_on_inv m note velocity active h
  · exact fun note => handle_note_off_inv m note active h
  · exact fun message => midi_callback_inv m message active h
  · exact fun data out heq => process_midi_event_inv m data active out h heq
  · exact fun msgs => midi_callbacks_inv m msgs active h

/-- C10 witness: from the empty state, pressing note 60 under the octave map
keeps every held note mapped and emits only mapped channels below 8. -/
theorem active_notes_stay_mapped_witness :
    mapped_inv note_to_relay (handle_note_on note_to_relay 60 64 (∅ : Finset Nat)).1 ∧
    emits_mapped note_to_relay (handle_note_on note_to_relay 60 64 (∅ : Finset Nat)).2 :=
  (active_notes_stay_mapped note_to_relay ∅
    (fun n hn => absurd hn (Finset.not_mem_empty n))).2.1 60 64

end PianoLights
